import Mathlib

/-!
Shallow embedding of the community-calendar backend.

Sources embedded:
  src/routes/events.js  -- event listing, update, delete, RSVP, favorite,
                           comments, and the unauthenticated clear-all route
  src/routes/auth.js    -- registration and login
  src/unnamed/part_000  -- admin routes (user/event deletion with cascade)

Conventions of the embedding:
  * Mongo document ids are natural numbers; stores are Lean lists.
  * JavaScript strings are Lean `String`; `toLowerCase`/`trim` are modelled
    at the ASCII level (`lowerStr`, `trimStr`), which is exact for the
    character ranges the validators accept.
  * Loosely-typed JSON body fields are modelled by `JsValue` together with
    JavaScript truthiness.
  * Counters that JavaScript may decrement below zero are `Int`.
  * Anchored case-insensitive `$regex` equality checks are modelled as
    case-insensitive string equality, and unanchored case-insensitive
    `$regex` matching as case-insensitive substring containment (exact for
    patterns without regex metacharacters).
-/

namespace CommunityCalendar

/-! ## JavaScript value model -/

/-- Model of a loosely-typed JSON body field as it arrives in a handler. -/
inductive JsValue where
  | undef : JsValue
  | nul : JsValue
  | bool (b : Bool) : JsValue
  | num (n : Int) : JsValue
  | str (s : String) : JsValue
deriving DecidableEq

/-- JavaScript truthiness of a `JsValue` (NaN is not modelled). -/
def JsValue.truthy : JsValue → Bool
  | .undef => false
  | .nul => false
  | .bool b => b
  | .num n => n ≠ 0
  | .str s => s ≠ ""

/-! ## String helpers -/

/-- ASCII lower-casing of one character, as `String.prototype.toLowerCase`
acts on the ASCII range. -/
def lowerChar (c : Char) : Char :=
  if 'A' ≤ c ∧ c ≤ 'Z' then Char.ofNat (c.toNat + 32) else c

/-- ASCII lower-casing of a string (`toLowerCase`). -/
def lowerStr (s : String) : String := String.mk (s.data.map lowerChar)

/-- Whitespace recognised by the model of `String.prototype.trim`. -/
def isWs (c : Char) : Bool := c = ' ' || c = '\t' || c = '\n' || c = '\r'

/-- Model of `String.prototype.trim`. -/
def trimStr (s : String) : String :=
  String.mk (((s.data.dropWhile isWs).reverse.dropWhile isWs).reverse)

/-- Does the first list lead the second (needle starts the haystack)? -/
def leadsWith : List Char → List Char → Bool
  | [], _ => true
  | _ :: _, [] => false
  | a :: as, b :: bs => a = b && leadsWith as bs

/-- Substring containment on character lists. -/
def hasSub (needle : List Char) : List Char → Bool
  | [] => leadsWith needle []
  | h :: t => leadsWith needle (h :: t) || hasSub needle t

/-- Case-insensitive substring containment: the model of an unanchored
case-insensitive `$regex` for metacharacter-free patterns. -/
def ciSub (hay needle : String) : Bool :=
  hasSub (lowerStr needle).data (lowerStr hay).data

/-- Case-insensitive string equality: the model of an anchored
case-insensitive `$regex` for metacharacter-free patterns. -/
def ciEq (a b : String) : Bool := lowerStr a = lowerStr b

/-- String length as `String.prototype.length` counts it for the
basic-multilingual-plane strings the validators accept. -/
def strLen (s : String) : Nat := s.data.length

/-! ## Data model (src/routes/events.js, src/routes/auth.js) -/

/-- One embedded RSVP entry of an event: `{ user_id, status }`. -/
structure Rsvp where
  user_id : Nat
  status : String
deriving DecidableEq

/-- One embedded comment of an event:
`{ user_id, username, text, created_at }`. -/
structure Comment where
  user_id : Nat
  username : String
  text : String
  created_at : Nat
deriving DecidableEq

/-- An event document with its embedded RSVP list, favorites list and
comment list, as the routes in src/routes/events.js read and write it. -/
structure Event where
  id : Nat
  title : String
  description : String
  category : String
  date : String
  time : String
  location : String
  contact_info : String
  image_url : String
  max_capacity : Int
  tags : List String
  organizer : String
  organizer_id : Nat
  attendees_going : Int
  attendees_interested : Int
  rsvps : List Rsvp
  favorites : List Nat
  comments : List Comment
  created_at : Nat
  updated_at : Nat
deriving DecidableEq

/-- A user document of the Credential Store as src/routes/auth.js reads and
writes it (the password is stored only as a hash; see `registerHandler`). -/
structure UserRec where
  id : Nat
  username : String
  email : String
  passwordHash : String
  zipcode : String
  isAdmin : Bool
  lastLogin : Option Nat
deriving DecidableEq

/-- The body of a `POST /api/events` or `PUT /api/events/:id` request,
with every field of the Joi `eventSchema` present. -/
structure EventPayload where
  title : String
  description : String
  category : String
  date : String
  time : String
  location : String
  contact_info : String
  image_url : String
  max_capacity : Int
  tags : List String
deriving DecidableEq

/-- The body of a `POST /api/auth/register` request. -/
structure RegisterReq where
  username : String
  email : String
  password : String
  zipcode : String
deriving DecidableEq

/-! ## Validation (Joi schemas of events.js and auth.js) -/

/-- The nine categories of the Joi `eventSchema`. -/
def validCategory (c : String) : Bool :=
  c = "general" || c = "garage_sale" || c = "sports" || c = "church" ||
  c = "town_meeting" || c = "community" || c = "fundraiser" ||
  c = "workshop" || c = "festival"

/-- The Joi date pattern of eventSchema. -/
def validDate (s : String) : Bool :=
  match s.data with
  | [y1, y2, y3, y4, h1, m1, m2, h2, d1, d2] =>
    y1.isDigit && y2.isDigit && y3.isDigit && y4.isDigit && h1 = '-' &&
    m1.isDigit && m2.isDigit && h2 = '-' && d1.isDigit && d2.isDigit
  | _ => false

/-- Splitting a character list on a separator, as `String.prototype.split`
and `String.splitOn` behave for one-character separators. -/
def splitOnChar (sep : Char) : List Char → List (List Char)
  | [] => [[]]
  | c :: cs =>
    if c = sep then [] :: splitOnChar sep cs
    else
      match splitOnChar sep cs with
      | [] => [[c]]
      | h :: t => (c :: h) :: t

/-- Joi's `string().uri()` modelled as the presence of a well-formed leading
scheme followed by a colon (RFC 3986 scheme grammar). -/
def isUriLike (s : String) : Bool :=
  match splitOnChar ':' s.data with
  | scheme :: _ :: _ =>
    scheme ≠ [] &&
    (scheme.headD 'a').isAlpha &&
    scheme.all (fun c => c.isAlpha || c.isDigit || c = '+' || c = '-' || c = '.')
  | _ => false

/-- The Joi `eventSchema` of src/routes/events.js as a predicate on full
payloads; Joi's required strings reject the empty string. -/
def validatePayload (p : EventPayload) : Bool :=
  3 ≤ strLen p.title && strLen p.title ≤ 100 &&
  strLen p.description ≤ 2000 &&
  validCategory p.category &&
  validDate p.date &&
  1 ≤ strLen p.location && strLen p.location ≤ 200 &&
  strLen p.contact_info ≤ 100 &&
  (p.image_url = "" || isUriLike p.image_url) &&
  0 ≤ p.max_capacity &&
  p.tags.length ≤ 10

/-- Joi's `string().email()` modelled as one `@` splitting a nonempty local
part from a domain of at least two nonempty dot-separated labels. -/
def isEmailLike (s : String) : Bool :=
  match splitOnChar '@' s.data with
  | [lp, domain] =>
    lp ≠ [] && (splitOnChar '.' domain).length ≥ 2 &&
    (splitOnChar '.' domain).all (fun l => l ≠ [])
  | _ => false

/-- The Joi zipcode pattern of the `registerSchema`. -/
def validZip (s : String) : Bool :=
  match s.data with
  | [a, b, c, d, e] => a.isDigit && b.isDigit && c.isDigit && d.isDigit && e.isDigit
  | [a, b, c, d, e, h, f, g, i, j] =>
    a.isDigit && b.isDigit && c.isDigit && d.isDigit && e.isDigit &&
    h = '-' && f.isDigit && g.isDigit && i.isDigit && j.isDigit
  | _ => false

/-- The Joi `registerSchema` of src/routes/auth.js. -/
def validRegister (r : RegisterReq) : Bool :=
  3 ≤ strLen r.username && strLen r.username ≤ 30 &&
  isEmailLike r.email &&
  6 ≤ strLen r.password && strLen r.password ≤ 100 &&
  validZip r.zipcode

/-- The Joi `loginSchema` of src/routes/auth.js: a valid email and a
required (hence nonempty) password. -/
def validLogin (email password : String) : Bool :=
  isEmailLike email && password ≠ ""

/-! ## Store primitives -/

/-- `Event.findById`: the unique-id Mongo lookup, modelled as first match. -/
def findEvent (store : List Event) (eid : Nat) : Option Event :=
  store.find? (fun e => e.id = eid)

/-- `event.save()` on a loaded document: replace the stored document that
has the same id. -/
def saveEvent (e : Event) : List Event → List Event
  | [] => []
  | x :: xs => if x.id = e.id then e :: xs else x :: saveEvent e xs

/-- `Event.findByIdAndDelete`: remove the document with the given id. -/
def deleteById (eid : Nat) : List Event → List Event
  | [] => []
  | x :: xs => if x.id = eid then xs else x :: deleteById eid xs

/-! ## Principals and guards -/

/-- The principal behind a request: unauthenticated, or an authenticated
user together with its admin flag. -/
inductive Principal where
  | anon : Principal
  | user (id : Nat) (isAdmin : Bool) : Principal
deriving DecidableEq

/-- Modelled from the spec: middleware/auth.js is not under src/. Per §4.3
the required-auth guard resolves a user id from a valid bearer token and
rejects the request with an authentication error otherwise; the token is
modelled as the authenticated principal itself. -/
def requiredAuth : Principal → Option (Nat × Bool)
  | .anon => none
  | .user uid adm => some (uid, adm)

/-! ## Event listing (GET /api/events, events.js lines 24-56) -/

/-- JavaScript truthiness of an optional query parameter: `undefined` and
the empty string are both falsy, so neither installs a filter. -/
def givenParam : Option String → Bool
  | none => false
  | some s => s ≠ ""

/-- The Mongo query the GET /api/events handler builds: an exact category
match when `category` is truthy, and an `$or` of case-insensitive regex
matches over title, description and location when `search` is truthy. -/
def matchesQuery (category search : Option String) (e : Event) : Bool :=
  (if givenParam category then e.category = category.getD "" else true) &&
  (if givenParam search then
     ciSub e.title (search.getD "") ||
     ciSub e.description (search.getD "") ||
     ciSub e.location (search.getD "")
   else true)

/-- The sort key of `.sort({ date: 1, created_at: -1 })`: date ascending,
then creation time descending. -/
def eventLE (a b : Event) : Prop :=
  a.date < b.date ∨ (a.date = b.date ∧ b.created_at ≤ a.created_at)

instance : DecidableRel eventLE := fun a b => by
  unfold eventLE; infer_instance

instance : IsTotal Event eventLE where
  total a b := by
    unfold eventLE
    rcases lt_trichotomy a.date b.date with h | h | h
    · exact Or.inl (Or.inl h)
    · rcases Nat.le_total b.created_at a.created_at with h2 | h2
      · exact Or.inl (Or.inr ⟨h, h2⟩)
      · exact Or.inr (Or.inr ⟨h.symm, h2⟩)
    · exact Or.inr (Or.inl h)

instance : IsTrans Event eventLE where
  trans a b c hab hbc := by
    unfold eventLE at *
    rcases hab with h1 | ⟨h1, h1c⟩
    · rcases hbc with h2 | ⟨h2, _⟩
      · exact Or.inl (h1.trans h2)
      · exact Or.inl (h2 ▸ h1)
    · rcases hbc with h2 | ⟨h2, h2c⟩
      · exact Or.inl (h1 ▸ h2)
      · exact Or.inr ⟨h1.trans h2, h2c.trans h1c⟩

/-- `Event.find(query).sort({ date: 1, created_at: -1 })` on the stored
events, modelled as filtering then sorting by `eventLE`. -/
def listEventsHandler (store : List Event) (category search : Option String) :
    List Event :=
  List.insertionSort eventLE (store.filter (matchesQuery category search))

/-! ## Event update and delete (events.js lines 100-156) -/

/-- `Object.assign(event, req.body)` followed by `event.updated_at = new
Date()`: every schema field of the payload overwrites the event. -/
def applyPayload (e : Event) (p : EventPayload) (now : Nat) : Event :=
  { e with
    title := p.title
    description := p.description
    category := p.category
    date := p.date
    time := p.time
    location := p.location
    contact_info := p.contact_info
    image_url := p.image_url
    max_capacity := p.max_capacity
    tags := p.tags
    updated_at := now }

/-- The PUT /api/events/:id handler: required auth, then payload
validation, then lookup, then the organizer check, then the update. The
status code and the resulting store are returned. -/
def putEventRoute (p : Principal) (store : List Event) (eid : Nat)
    (body : EventPayload) (now : Nat) : Nat × List Event :=
  match requiredAuth p with
  | none => (401, store)
  | some (uid, _) =>
    if ¬ validatePayload body then (400, store)
    else
      match findEvent store eid with
      | none => (404, store)
      | some e =>
        if e.organizer_id ≠ uid then (403, store)
        else (200, saveEvent (applyPayload e body now) store)

/-- The DELETE /api/events/:id handler: required auth, lookup, organizer
check, then `findByIdAndDelete`. -/
def deleteEventRoute (p : Principal) (store : List Event) (eid : Nat) :
    Nat × List Event :=
  match requiredAuth p with
  | none => (401, store)
  | some (uid, _) =>
    match findEvent store eid with
    | none => (404, store)
    | some e =>
      if e.organizer_id ≠ uid then (403, store)
      else (204, deleteById eid store)

/-- The DELETE /api/events/admin/clear-all handler (events.js lines
318-330): the route is registered without any auth middleware, so it runs
for every principal and performs `Event.deleteMany({})`. -/
def clearAllRoute (_p : Principal) (_store : List Event) : Nat × List Event :=
  (200, [])

/-! ## Admin routes (src/unnamed/part_000) -/

/-- Modelled from the spec for the admin gate only (middleware/auth.js is
not under src/; §4.3: admin-required performs required-auth and then checks
the isAdmin flag, rejecting non-admins with an authorization error). The
handler body below it follows DELETE /api/admin/events/:id of
src/unnamed/part_000 lines 189-206. -/
def adminDeleteEventRoute (p : Principal) (store : List Event) (eid : Nat) :
    Nat × List Event :=
  match p with
  | .anon => (401, store)
  | .user _ adm =>
    if ¬ adm then (403, store)
    else
      match findEvent store eid with
      | none => (404, store)
      | some _ => (200, deleteById eid store)

/-- DELETE /api/admin/users/:id (src/unnamed/part_000 lines 162-186): admin
gate as in `adminDeleteEventRoute`, self-deletion rejected, then
`Event.deleteMany({ organizer_id: userId })` and the user removed. -/
def adminDeleteUserRoute (p : Principal) (users : List UserRec)
    (events : List Event) (targetId : Nat) : Nat × List UserRec × List Event :=
  match p with
  | .anon => (401, users, events)
  | .user uid adm =>
    if ¬ adm then (403, users, events)
    else if targetId = uid then (400, users, events)
    else
      match users.find? (fun u => u.id = targetId) with
      | none => (404, users, events)
      | some _ =>
        (200, users.filter (fun u => u.id ≠ targetId),
         events.filter (fun e => e.organizer_id ≠ targetId))

/-! ## RSVP (POST /api/events/:id/rsvp, events.js lines 159-207) -/

/-- `findIndex` over the rsvps list resolved to the found entry. -/
def findUserRsvp (uid : Nat) : List Rsvp → Option Rsvp
  | [] => none
  | r :: rs => if r.user_id = uid then some r else findUserRsvp uid rs

/-- `splice(existingRsvpIndex, 1)`: drop the first entry of the user. -/
def removeUserRsvp (uid : Nat) : List Rsvp → List Rsvp
  | [] => []
  | r :: rs => if r.user_id = uid then rs else r :: removeUserRsvp uid rs

/-- The four strings the RSVP handler accepts. -/
def validRsvpStatus (st : String) : Bool :=
  st = "going" || st = "interested" || st = "not_going" || st = ""

/-- The mutation the RSVP handler performs on a loaded event: remove any
existing entry of the user (decrementing the counter matching its status),
then, when the new status is truthy and not `not_going`, push a fresh entry
and increment the matching counter. -/
def rsvpUpdate (e : Event) (uid : Nat) (st : String) : Event :=
  let e1 :=
    match findUserRsvp uid e.rsvps with
    | some r =>
      { e with
        attendees_going :=
          e.attendees_going - (if r.status = "going" then 1 else 0)
        attendees_interested :=
          e.attendees_interested - (if r.status = "interested" then 1 else 0)
        rsvps := removeUserRsvp uid e.rsvps }
    | none => e
  if st ≠ "" ∧ st ≠ "not_going" then
    { e1 with
      rsvps := e1.rsvps ++ [⟨uid, st⟩]
      attendees_going :=
        e1.attendees_going + (if st = "going" then 1 else 0)
      attendees_interested :=
        e1.attendees_interested + (if st = "interested" then 1 else 0) }
  else e1

/-- The POST /api/events/:id/rsvp handler for an authenticated user: the
status check precedes the lookup, so an invalid status is a 400 even when
the event does not exist; the third component echoes `rsvp_status`. -/
def rsvpHandler (store : List Event) (uid : Nat) (eid : Nat) (st : String) :
    Nat × List Event × Option String :=
  if ¬ validRsvpStatus st then (400, store, none)
  else
    match findEvent store eid with
    | none => (404, store, none)
    | some e => (200, saveEvent (rsvpUpdate e uid st) store, some st)

/-- One RSVP request of a user against one event, as the handler treats the
loaded document: invalid statuses leave the event unchanged. -/
def rsvpStep (e : Event) (op : Nat × String) : Event :=
  if validRsvpStatus op.2 then rsvpUpdate e op.1 op.2 else e

/-! ## Favorite (POST /api/events/:id/favorite, events.js lines 210-243) -/

/-- `splice(favIndex, 1)` on the favorites list: drop the first occurrence
of the user id. -/
def removeFav (uid : Nat) : List Nat → List Nat
  | [] => []
  | x :: xs => if x = uid then xs else x :: removeFav uid xs

/-- The mutation the favorite handler performs on a loaded event: a truthy
`is_favorited` pushes the user when absent, a falsy one splices the user
out when present, and otherwise nothing changes. -/
def favUpdate (e : Event) (uid : Nat) (v : JsValue) : Event :=
  if v.truthy ∧ uid ∉ e.favorites then { e with favorites := e.favorites ++ [uid] }
  else if ¬ v.truthy ∧ uid ∈ e.favorites then
    { e with favorites := removeFav uid e.favorites }
  else e

/-- The POST /api/events/:id/favorite handler for an authenticated user:
there is no body validation, and the 200 response echoes the request's
`is_favorited` value. -/
def favoriteHandler (store : List Event) (uid : Nat) (eid : Nat)
    (v : JsValue) : Nat × List Event × Option JsValue :=
  match findEvent store eid with
  | none => (404, store, none)
  | some e => (200, saveEvent (favUpdate e uid v) store, some v)

/-! ## Comments (events.js lines 246-314) -/

/-- The POST /api/events/:id/comments handler for an authenticated user:
empty-after-trim text and text over 500 characters are 400s, otherwise the
trimmed text is appended with a username snapshot and a timestamp. -/
def addCommentHandler (store : List Event) (uid : Nat) (uname : String)
    (eid : Nat) (text : String) (now : Nat) :
    Nat × List Event × Option Comment :=
  if trimStr text = "" then (400, store, none)
  else if strLen text > 500 then (400, store, none)
  else
    match findEvent store eid with
    | none => (404, store, none)
    | some e =>
      let c : Comment := ⟨uid, uname, trimStr text, now⟩
      (201, saveEvent { e with comments := e.comments ++ [c] } store, some c)

/-- The comparator of `comments.sort((a, b) => b.created_at - a.created_at)`:
newest first. -/
def commentLE (a b : Comment) : Prop := b.created_at ≤ a.created_at

instance : DecidableRel commentLE := fun a b => by
  unfold commentLE; infer_instance

instance : IsTotal Comment commentLE where
  total a b := Nat.le_total b.created_at a.created_at

instance : IsTrans Comment commentLE where
  trans _ _ _ hab hbc := Nat.le_trans hbc hab

/-- The newest-first sort the GET comments handler applies. -/
def sortComments (cs : List Comment) : List Comment :=
  List.insertionSort commentLE cs

/-- The GET /api/events/:id/comments handler. -/
def getCommentsHandler (store : List Event) (eid : Nat) :
    Nat × List Comment :=
  match findEvent store eid with
  | none => (404, [])
  | some e => (200, sortComments e.comments)

/-! ## Registration (POST /api/auth/register, auth.js lines 42-104) -/

/-- The conflict message naming the email field. -/
def emailConflictMsg : String :=
  "This email is already registered. Please use a different email or try logging in."

/-- The conflict message naming the username field. -/
def usernameConflictMsg : String :=
  "This username is already taken. Please choose a different username."

/-- The `findOne` duplicate probe of the register handler: an exact match
on the normalized email or an anchored case-insensitive match on the
normalized username. -/
def findDuplicate (store : List UserRec) (username email : String) :
    Option UserRec :=
  store.find? (fun u => u.email = email || ciEq u.username username)

/-- The POST /api/auth/register handler. Validation precedes normalization
(`username.trim()`, `email.toLowerCase().trim()`), which precedes the
duplicate probe, which precedes the insert. Password hashing lives in the
User model (not under src/) and is passed in as `hash`; new accounts carry
`isAdmin = false` per the spec (admin status is set only out of band). The
result is the status code, the resulting store, and the response message. -/
def registerHandler (hash : String → String) (store : List UserRec)
    (freshId : Nat) (r : RegisterReq) : Nat × List UserRec × String :=
  if ¬ validRegister r then (400, store, "")
  else
    let username := trimStr r.username
    let email := trimStr (lowerStr r.email)
    match findDuplicate store username email with
    | some u =>
      if u.email = email then (409, store, emailConflictMsg)
      else (409, store, usernameConflictMsg)
    | none =>
      (201,
       store ++ [⟨freshId, username, email, hash r.password, trimStr r.zipcode,
                 false, none⟩],
       "")

/-- One registration request folded into a (store, next-fresh-id) state. -/
def regStep (hash : String → String) (st : List UserRec × Nat)
    (r : RegisterReq) : List UserRec × Nat :=
  let out := registerHandler hash st.1 st.2 r
  (out.2.1, if out.1 = 201 then st.2 + 1 else st.2)

/-- The Credential Store reached from empty by a sequence of registration
requests. -/
def runRegs (hash : String → String) (reqs : List RegisterReq) :
    List UserRec :=
  (reqs.foldl (regStep hash) ([], 0)).1

/-! ## Login (POST /api/auth/login, auth.js lines 107-151) -/

/-- The uniform message of both failing login branches. -/
def loginFailMsg : String :=
  "Invalid email or password. Please check your credentials and try again."

/-- `user.save()` after the lastLogin stamp: replace by id. -/
def saveUser (u : UserRec) : List UserRec → List UserRec
  | [] => []
  | x :: xs => if x.id = u.id then u :: xs else x :: saveUser u xs

/-- The POST /api/auth/login handler. `verify` stands for the User model's
`comparePassword` (the model is not under src/); both failure branches
return 401 with `loginFailMsg`, and success stamps lastLogin. -/
def loginHandler (verify : UserRec → String → Bool) (store : List UserRec)
    (email password : String) (now : Nat) : Nat × String × List UserRec :=
  if ¬ validLogin email password then (400, "", store)
  else
    let em := trimStr (lowerStr email)
    match store.find? (fun u => u.email = em) with
    | none => (401, loginFailMsg, store)
    | some u =>
      if ¬ verify u password then (401, loginFailMsg, store)
      else (200, "", saveUser { u with lastLogin := some now } store)

/-! ## Derived counts and invariants -/

/-- Number of rsvps entries with status `going`. -/
def goingCount (rs : List Rsvp) : Nat :=
  (rs.filter (fun r => r.status = "going")).length

/-- Number of rsvps entries with status `interested`. -/
def interestedCount (rs : List Rsvp) : Nat :=
  (rs.filter (fun r => r.status = "interested")).length

/-- Number of rsvps entries of one user. -/
def userCount (uid : Nat) (rs : List Rsvp) : Nat :=
  (rs.filter (fun r => r.user_id = uid)).length

/-- The RSVP consistency invariant of an event: each counter equals the
count of rsvps entries with the matching status, and each user holds at
most one entry. -/
def rsvpInv (e : Event) : Prop :=
  e.attendees_going = (goingCount e.rsvps : Int) ∧
  e.attendees_interested = (interestedCount e.rsvps : Int) ∧
  ∀ uid, userCount uid e.rsvps ≤ 1

/-- The counter contribution of the entry the RSVP handler removes: 1 when
the user's existing entry carries the given status, else 0. -/
def removedContrib (e : Event) (uid : Nat) (status : String) : Int :=
  match findUserRsvp uid e.rsvps with
  | some r => if r.status = status then 1 else 0
  | none => 0

/-- The registration-store invariant: stored emails are lower-case-stable,
and no two users collide case-insensitively on email or on username. -/
def regInv (store : List UserRec) : Prop :=
  (∀ u ∈ store, lowerStr u.email = u.email) ∧
  store.Pairwise (fun u v =>
    lowerStr u.email ≠ lowerStr v.email ∧
    lowerStr u.username ≠ lowerStr v.username)

/-! ## Concrete sample data for witnesses and counterexamples -/

/-- A stored event owned by user 1. -/
def sampleEvent : Event :=
  { id := 1, title := "Garage Sale", description := "", category := "garage_sale"
    date := "2026-01-01", time := "", location := "Main St", contact_info := ""
    image_url := "", max_capacity := 0, tags := [], organizer := "alice"
    organizer_id := 1, attendees_going := 0, attendees_interested := 0
    rsvps := [], favorites := [], comments := [], created_at := 0, updated_at := 0 }

/-- A payload the Joi `eventSchema` rejects (title shorter than 3). -/
def badPayload : EventPayload :=
  { title := "ab", description := "", category := "general", date := "2026-01-01"
    time := "", location := "Main St", contact_info := "", image_url := ""
    max_capacity := 0, tags := [] }

/-- A payload the Joi `eventSchema` accepts. -/
def goodPayload : EventPayload :=
  { title := "Bake Sale", description := "", category := "general"
    date := "2026-01-01", time := "", location := "Main St", contact_info := ""
    image_url := "", max_capacity := 0, tags := [] }

/-- A stored user. -/
def sampleUser : UserRec :=
  { id := 0, username := "alice", email := "alice@example.com"
    passwordHash := "h", zipcode := "12345", isAdmin := false, lastLogin := none }

/-- The stored user owning `sampleEvent`. -/
def sampleOrganizer : UserRec :=
  { id := 1, username := "bob", email := "bob@example.com"
    passwordHash := "h", zipcode := "12345", isAdmin := false, lastLogin := none }

/-! ## Theorems -/

theorem findEvent_saveEvent (store : List Event) (eid : Nat) (e x : Event)
    (hfind : findEvent store eid = some e) (hid : x.id = e.id) :
    findEvent (saveEvent x store) eid = some x := by
  induction store with
  | nil => simp [findEvent] at hfind
  | cons y t ih =>
    unfold findEvent at hfind ⊢
    by_cases hy : y.id = eid
    · rw [List.find?_cons_of_pos _ (by simpa using hy)] at hfind
      have hey : y = e := by injection hfind
      subst hey
      simp only [saveEvent, if_pos hid.symm]
      exact List.find?_cons_of_pos _ (by simpa using hid.trans hy)
    · rw [List.find?_cons_of_neg _ (by simpa using hy)] at hfind
      have he : e.id = eid := by simpa using List.find?_some hfind
      have hye : ¬ y.id = x.id := by
        rw [hid, he]
        exact fun hcon => hy hcon
      simp only [saveEvent, if_neg hye]
      rw [List.find?_cons_of_neg _ (by simpa using hy)]
      exact ih hfind

/-- C1. The claim says an event is removed only by its organizer or by the
admin cascade of a user deletion. The code refutes it: the clear-all route
carries no auth guard, so even an unauthenticated request empties the Event
Store, removing `sampleEvent` which no organizer asked to delete. -/
theorem clear_all_deletes_without_auth :
    sampleEvent ∈ [sampleEvent] ∧
    clearAllRoute Principal.anon [sampleEvent] = (200, []) ∧
    sampleEvent ∉ (clearAllRoute Principal.anon [sampleEvent]).2 := by
  exact ⟨List.mem_singleton.mpr rfl, rfl, by simp [clearAllRoute]⟩

/-- C1 (amended). Deletion through DELETE /events/:id happens only when
the requester is the found event's organizer; DELETE /admin/events/:id
mutates the store only for admin principals; admin user deletion cascades
to exactly the target user's events; and DELETE /events/admin/clear-all
removes all events for every principal, the unauthenticated one included. -/
theorem event_deletion_principals :
    (∀ p store eid, (deleteEventRoute p store eid).2 ≠ store →
      ∃ uid adm e, p = Principal.user uid adm ∧ findEvent store eid = some e ∧
        e.organizer_id = uid) ∧
    (∀ p store eid, (adminDeleteEventRoute p store eid).2 ≠ store →
      ∃ uid, p = Principal.user uid true) ∧
    (∀ p users events t, (adminDeleteUserRoute p users events t).2.2 ≠ events →
      ∃ uid, p = Principal.user uid true ∧
        (adminDeleteUserRoute p users events t).2.2 =
          events.filter (fun e => e.organizer_id ≠ t)) ∧
    (∀ p store, clearAllRoute p store = (200, [])) := by
  refine ⟨?_, ?_, ?_, fun _ _ => rfl⟩
  · intro p store eid h
    cases p with
    | anon => simp [deleteEventRoute, requiredAuth] at h
    | user uid adm =>
      refine ⟨uid, adm, ?_⟩
      cases hfind : findEvent store eid with
      | none => simp [deleteEventRoute, requiredAuth, hfind] at h
      | some e =>
        by_cases horg : e.organizer_id = uid
        · exact ⟨e, rfl, rfl, horg⟩
        · simp [deleteEventRoute, requiredAuth, hfind, horg] at h
  · intro p store eid h
    cases p with
    | anon => simp [adminDeleteEventRoute] at h
    | user uid adm =>
      cases adm with
      | false => simp [adminDeleteEventRoute] at h
      | true => exact ⟨uid, rfl⟩
  · intro p users events t h
    cases p with
    | anon => simp [adminDeleteUserRoute] at h
    | user uid adm =>
      cases adm with
      | false => simp [adminDeleteUserRoute] at h
      | true =>
        refine ⟨uid, rfl, ?_⟩
        by_cases hself : t = uid
        · simp [adminDeleteUserRoute, hself] at h
        · cases hfu : users.find? (fun u => u.id = t) with
          | none => simp [adminDeleteUserRoute, hself, hfu] at h
          | some u => simp [adminDeleteUserRoute, hself, hfu]

theorem event_deletion_principals_witness :
    (∃ uid adm e, Principal.user 1 false = Principal.user uid adm ∧
      findEvent [sampleEvent] 1 = some e ∧ e.organizer_id = uid) ∧
    (∃ uid, Principal.user 9 true = Principal.user uid true ∧
      (adminDeleteUserRoute (Principal.user 9 true) [sampleOrganizer] [sampleEvent] 1).2.2 =
        [sampleEvent].filter (fun e => e.organizer_id ≠ 1)) :=
  ⟨event_deletion_principals.1 (Principal.user 1 false) [sampleEvent] 1 (by decide),
   event_deletion_principals.2.2.1 (Principal.user 9 true) [sampleOrganizer]
     [sampleEvent] 1 (by decide)⟩

/-- C2. The claim says a non-organizer update of an existing event is a
403 regardless of payload validity. The code refutes it: payload
validation runs before the ownership check, so user 2's invalid payload
against user 1's event yields a 400, not a 403. -/
theorem nonorganizer_invalid_put_is_400 :
    findEvent [sampleEvent] 1 = some sampleEvent ∧
    sampleEvent.organizer_id ≠ 2 ∧
    validatePayload badPayload = false ∧
    putEventRoute (Principal.user 2 false) [sampleEvent] 1 badPayload 5 =
      (400, [sampleEvent]) := by
  exact ⟨by decide, by decide, by decide, by decide⟩

/-- C2 (amended). For an existing event and a requester who is not its
organizer: an invalid payload makes PUT return 400 with the store
unchanged (validation precedes the ownership check), a valid payload makes
PUT return 403, and DELETE always returns 403; the store is unchanged in
every case. -/
theorem nonorganizer_update_delete_outcomes
    (store : List Event) (eid now uid : Nat) (adm : Bool) (body : EventPayload)
    (e : Event) (hfind : findEvent store eid = some e)
    (horg : e.organizer_id ≠ uid) :
    (validatePayload body = false →
      putEventRoute (Principal.user uid adm) store eid body now = (400, store)) ∧
    (validatePayload body = true →
      putEventRoute (Principal.user uid adm) store eid body now = (403, store)) ∧
    deleteEventRoute (Principal.user uid adm) store eid = (403, store) := by
  refine ⟨fun hv => ?_, fun hv => ?_, ?_⟩
  · simp [putEventRoute, requiredAuth, hv]
  · simp [putEventRoute, requiredAuth, hv, hfind, horg]
  · simp [deleteEventRoute, requiredAuth, hfind, horg]

theorem nonorganizer_update_delete_outcomes_witness :
    putEventRoute (Principal.user 2 false) [sampleEvent] 1 goodPayload 5 =
      (403, [sampleEvent]) ∧
    deleteEventRoute (Principal.user 2 false) [sampleEvent] 1 =
      (403, [sampleEvent]) :=
  ⟨(nonorganizer_update_delete_outcomes [sampleEvent] 1 5 2 false goodPayload
      sampleEvent (by decide) (by decide)).2.1 (by decide),
   (nonorganizer_update_delete_outcomes [sampleEvent] 1 5 2 false goodPayload
      sampleEvent (by decide) (by decide)).2.2⟩

theorem matchesQuery_iff (category search : Option String) (e : Event) :
    matchesQuery category search e = true ↔
      ((givenParam category = true → e.category = category.getD "") ∧
       (givenParam search = true →
         (ciSub e.title (search.getD "") || ciSub e.description (search.getD "") ||
          ciSub e.location (search.getD "")) = true)) := by
  unfold matchesQuery
  cases hc : givenParam category <;> cases hs : givenParam search <;> simp [hc, hs]

/-- C8. Event listing returns exactly the stored events passing the
category filter (exact match, when given) and the search filter
(case-insensitive substring of title, description or location, when
given), in an order sorted by date ascending with creation time descending
breaking same-date ties. -/
theorem list_events_filter_sorted (store : List Event)
    (category search : Option String) :
    (∀ e, e ∈ listEventsHandler store category search ↔
      (e ∈ store ∧
       (givenParam category = true → e.category = category.getD "") ∧
       (givenParam search = true →
         (ciSub e.title (search.getD "") || ciSub e.description (search.getD "") ||
          ciSub e.location (search.getD "")) = true))) ∧
    List.Sorted eventLE (listEventsHandler store category search) ∧
    (listEventsHandler store category search).Perm
      (store.filter (matchesQuery category search)) := by
  refine ⟨fun e => ?_, List.sorted_insertionSort _ _, List.perm_insertionSort _ _⟩
  rw [listEventsHandler, (List.perm_insertionSort eventLE _).mem_iff,
    List.mem_filter, matchesQuery_iff]

theorem findUserRsvp_user (uid : Nat) (rs : List Rsvp) (r : Rsvp)
    (h : findUserRsvp uid rs = some r) : r.user_id = uid := by
  induction rs with
  | nil => simp [findUserRsvp] at h
  | cons x t ih =>
    by_cases hx : x.user_id = uid
    · rw [findUserRsvp, if_pos hx] at h
      injection h with h
      rw [← h]; exact hx
    · rw [findUserRsvp, if_neg hx] at h
      exact ih h

theorem removeUserRsvp_of_none (uid : Nat) (rs : List Rsvp)
    (h : findUserRsvp uid rs = none) : removeUserRsvp uid rs = rs := by
  induction rs with
  | nil => rfl
  | cons x t ih =>
    by_cases hx : x.user_id = uid
    · rw [findUserRsvp, if_pos hx] at h; exact absurd h (by simp)
    · rw [findUserRsvp, if_neg hx] at h
      rw [removeUserRsvp, if_neg hx, ih h]

theorem count_remove (p : Rsvp → Bool) (uid : Nat) (rs : List Rsvp) (r : Rsvp)
    (h : findUserRsvp uid rs = some r) :
    (rs.filter p).length =
      ((removeUserRsvp uid rs).filter p).length + (if p r then 1 else 0) := by
  induction rs with
  | nil => simp [findUserRsvp] at h
  | cons x t ih =>
    by_cases hx : x.user_id = uid
    · rw [findUserRsvp, if_pos hx] at h
      injection h with h
      subst h
      rw [removeUserRsvp, if_pos hx, List.filter_cons]
      by_cases hp : p x
      · simp [hp]
      · simp [hp]
    · rw [findUserRsvp, if_neg hx] at h
      rw [removeUserRsvp, if_neg hx, List.filter_cons, List.filter_cons]
      by_cases hp : p x
      · simp only [hp, if_pos, List.length_cons]
        rw [ih h]; omega
      · simp only [hp, Bool.false_eq_true, if_neg, not_false_iff]
        exact ih h

theorem userCount_zero_of_none (uid : Nat) (rs : List Rsvp)
    (h : findUserRsvp uid rs = none) : userCount uid rs = 0 := by
  induction rs with
  | nil => rfl
  | cons x t ih =>
    by_cases hx : x.user_id = uid
    · rw [findUserRsvp, if_pos hx] at h; exact absurd h (by simp)
    · rw [findUserRsvp, if_neg hx] at h
      rw [userCount, List.filter_cons]
      simp only [hx, decide_eq_true_eq, if_neg, Bool.false_eq_true, not_false_iff]
      exact ih h

theorem none_of_userCount_zero (uid : Nat) (rs : List Rsvp)
    (h : userCount uid rs = 0) : findUserRsvp uid rs = none := by
  induction rs with
  | nil => rfl
  | cons x t ih =>
    by_cases hx : x.user_id = uid
    · rw [userCount, List.filter_cons] at h
      simp [hx] at h
    · rw [userCount, List.filter_cons] at h
      simp only [hx, decide_eq_true_eq, if_neg, Bool.false_eq_true, not_false_iff] at h
      rw [findUserRsvp, if_neg hx]
      exact ih h

theorem userCount_remove_self (uid : Nat) (rs : List Rsvp) (r : Rsvp)
    (h : findUserRsvp uid rs = some r) :
    userCount uid rs = userCount uid (removeUserRsvp uid rs) + 1 := by
  have := count_remove (fun s => s.user_id = uid) uid rs r h
  rw [userCount, userCount, this, if_pos (by simpa using findUserRsvp_user uid rs r h)]

theorem userCount_remove_other (uid u : Nat) (rs : List Rsvp)
    (hne : u ≠ uid) : userCount u (removeUserRsvp uid rs) = userCount u rs := by
  cases h : findUserRsvp uid rs with
  | none => rw [removeUserRsvp_of_none uid rs h]
  | some r =>
    have hc := count_remove (fun s => s.user_id = u) uid rs r h
    have hr : r.user_id = uid := findUserRsvp_user uid rs r h
    rw [userCount, userCount, hc, if_neg (by simp [hr, hne.symm])]
    simp

theorem count_append_single (p : Rsvp → Bool) (rs : List Rsvp) (x : Rsvp) :
    ((rs ++ [x]).filter p).length =
      (rs.filter p).length + (if p x then 1 else 0) := by
  rw [List.filter_append, List.length_append, List.filter_cons]
  by_cases hp : p x
  · simp [hp]
  · simp [hp]

theorem rsvpUpdate_inv (e : Event) (uid : Nat) (st : String)
    (h : rsvpInv e) : rsvpInv (rsvpUpdate e uid st) := by
  obtain ⟨hg, hi, hc⟩ := h
  unfold rsvpUpdate
  cases hfind : findUserRsvp uid e.rsvps with
  | none =>
    have hz : userCount uid e.rsvps = 0 := userCount_zero_of_none uid e.rsvps hfind
    by_cases hst : st ≠ "" ∧ st ≠ "not_going"
    · rw [if_pos hst]
      refine ⟨?_, ?_, ?_⟩
      · show e.attendees_going + (if st = "going" then 1 else 0) =
          (goingCount (e.rsvps ++ [⟨uid, st⟩]) : Int)
        have happ : goingCount (e.rsvps ++ [⟨uid, st⟩]) =
            goingCount e.rsvps + (if st = "going" then 1 else 0) := by
          rw [goingCount, goingCount]
          simpa using count_append_single (fun s => s.status = "going") e.rsvps ⟨uid, st⟩
        rw [hg, happ]
        split_ifs <;> push_cast <;> omega
      · show e.attendees_interested + (if st = "interested" then 1 else 0) =
          (interestedCount (e.rsvps ++ [⟨uid, st⟩]) : Int)
        have happ : interestedCount (e.rsvps ++ [⟨uid, st⟩]) =
            interestedCount e.rsvps + (if st = "interested" then 1 else 0) := by
          rw [interestedCount, interestedCount]
          simpa using count_append_single (fun s => s.status = "interested") e.rsvps ⟨uid, st⟩
        rw [hi, happ]
        split_ifs <;> push_cast <;> omega
      · intro u
        show userCount u (e.rsvps ++ [⟨uid, st⟩]) ≤ 1
        have happ : userCount u (e.rsvps ++ [⟨uid, st⟩]) =
            userCount u e.rsvps + (if uid = u then 1 else 0) := by
          rw [userCount, userCount]
          simpa using count_append_single (fun s => s.user_id = u) e.rsvps ⟨uid, st⟩
        rw [happ]
        by_cases hu : uid = u
        · rw [if_pos hu, ← hu]
          omega
        · rw [if_neg hu]
          have := hc u
          omega
    · rw [if_neg hst]
      exact ⟨hg, hi, hc⟩
  | some r =>
    have hremg : goingCount e.rsvps =
        goingCount (removeUserRsvp uid e.rsvps) +
          (if r.status = "going" then 1 else 0) := by
      rw [goingCount, goingCount]
      simpa using count_remove (fun s => s.status = "going") uid e.rsvps r hfind
    have hremi : interestedCount e.rsvps =
        interestedCount (removeUserRsvp uid e.rsvps) +
          (if r.status = "interested" then 1 else 0) := by
      rw [interestedCount, interestedCount]
      simpa using count_remove (fun s => s.status = "interested") uid e.rsvps r hfind
    have hself := userCount_remove_self uid e.rsvps r hfind
    have hone := hc uid
    by_cases hst : st ≠ "" ∧ st ≠ "not_going"
    · rw [if_pos hst]
      refine ⟨?_, ?_, ?_⟩
      · show e.attendees_going - (if r.status = "going" then 1 else 0) +
            (if st = "going" then 1 else 0) =
          (goingCount (removeUserRsvp uid e.rsvps ++ [⟨uid, st⟩]) : Int)
        have happ : goingCount (removeUserRsvp uid e.rsvps ++ [⟨uid, st⟩]) =
            goingCount (removeUserRsvp uid e.rsvps) +
              (if st = "going" then 1 else 0) := by
          rw [goingCount, goingCount]
          simpa using count_append_single (fun s => s.status = "going")
            (removeUserRsvp uid e.rsvps) ⟨uid, st⟩
        rw [hg, hremg, happ]
        split_ifs <;> push_cast <;> omega
      · show e.attendees_interested - (if r.status = "interested" then 1 else 0) +
            (if st = "interested" then 1 else 0) =
          (interestedCount (removeUserRsvp uid e.rsvps ++ [⟨uid, st⟩]) : Int)
        have happ : interestedCount (removeUserRsvp uid e.rsvps ++ [⟨uid, st⟩]) =
            interestedCount (removeUserRsvp uid e.rsvps) +
              (if st = "interested" then 1 else 0) := by
          rw [interestedCount, interestedCount]
          simpa using count_append_single (fun s => s.status = "interested")
            (removeUserRsvp uid e.rsvps) ⟨uid, st⟩
        rw [hi, hremi, happ]
        split_ifs <;> push_cast <;> omega
      · intro u
        show userCount u (removeUserRsvp uid e.rsvps ++ [⟨uid, st⟩]) ≤ 1
        have happ : userCount u (removeUserRsvp uid e.rsvps ++ [⟨uid, st⟩]) =
            userCount u (removeUserRsvp uid e.rsvps) + (if uid = u then 1 else 0) := by
          rw [userCount, userCount]
          simpa using count_append_single (fun s => s.user_id = u)
            (removeUserRsvp uid e.rsvps) ⟨uid, st⟩
        rw [happ]
        by_cases hu : uid = u
        · rw [if_pos hu, ← hu]
          omega
        · rw [if_neg hu]
          have h2 : userCount u (removeUserRsvp uid e.rsvps) = userCount u e.rsvps :=
            userCount_remove_other uid u e.rsvps (fun hcon => hu hcon.symm)
          have := hc u
          omega
    · rw [if_neg hst]
      refine ⟨?_, ?_, ?_⟩
      · show e.attendees_going - (if r.status = "going" then 1 else 0) =
          (goingCount (removeUserRsvp uid e.rsvps) : Int)
        rw [hg, hremg]
        split_ifs <;> push_cast <;> omega
      · show e.attendees_interested - (if r.status = "interested" then 1 else 0) =
          (interestedCount (removeUserRsvp uid e.rsvps) : Int)
        rw [hi, hremi]
        split_ifs <;> push_cast <;> omega
      · intro u
        show userCount u (removeUserRsvp uid e.rsvps) ≤ 1
        by_cases hu : u = uid
        · rw [hu]
          omega
        · rw [userCount_remove_other uid u e.rsvps hu]
          exact hc u

theorem rsvpStep_inv (e : Event) (op : Nat × String)
    (h : rsvpInv e) : rsvpInv (rsvpStep e op) := by
  unfold rsvpStep
  by_cases hv : validRsvpStatus op.2
  · rw [if_pos hv]; exact rsvpUpdate_inv e op.1 op.2 h
  · rw [if_neg hv]; exact h

theorem foldl_rsvpStep_inv (ops : List (Nat × String)) :
    ∀ e, rsvpInv e → rsvpInv (ops.foldl rsvpStep e) := by
  induction ops with
  | nil => exact fun e h => h
  | cons op t ih =>
    intro e h
    exact ih (rsvpStep e op) (rsvpStep_inv e op h)

/-- C3. Starting from a fresh event, after any finite sequence of RSVP
operations by distinct users, `attendees_going` and `attendees_interested`
equal the counts of rsvps entries with the matching status, and each user
holds at most one entry. -/
theorem rsvp_counter_invariant (e : Event) (ops : List (Nat × String))
    (h0 : e.rsvps = []) (h1 : e.attendees_going = 0)
    (h2 : e.attendees_interested = 0)
    (hdistinct : (ops.map Prod.fst).Nodup) :
    rsvpInv (ops.foldl rsvpStep e) := by
  apply foldl_rsvpStep_inv
  refine ⟨?_, ?_, ?_⟩
  · rw [h0, h1]; rfl
  · rw [h0, h2]; rfl
  · intro uid; rw [h0]; exact Nat.zero_le 1

theorem rsvp_counter_invariant_witness :
    rsvpInv ([((2 : Nat), "going"), ((3 : Nat), "interested"),
      ((4 : Nat), "bogus")].foldl rsvpStep sampleEvent) :=
  rsvp_counter_invariant sampleEvent _ rfl rfl rfl (by decide)

theorem status_end_cases (st : String)
    (hst : ¬ (st ≠ "" ∧ st ≠ "not_going")) : st = "" ∨ st = "not_going" := by
  by_cases h1 : st = ""
  · exact Or.inl h1
  · by_cases h2 : st = "not_going"
    · exact Or.inr h2
    · exact absurd ⟨h1, h2⟩ hst

theorem status_end_ne (st : String)
    (hst : ¬ (st ≠ "" ∧ st ≠ "not_going")) :
    st ≠ "going" ∧ st ≠ "interested" := by
  rcases status_end_cases st hst with h | h <;> subst h <;>
    exact ⟨by decide, by decide⟩

theorem valid_status_cases (st : String) (hv : validRsvpStatus st = true)
    (hst : st ≠ "" ∧ st ≠ "not_going") : st = "going" ∨ st = "interested" := by
  rw [validRsvpStatus] at hv
  simp only [Bool.or_eq_true, decide_eq_true_eq] at hv
  rcases hv with ((hg | hi) | hn) | he
  · exact Or.inl hg
  · exact Or.inr hi
  · exact absurd hn hst.2
  · exact absurd he hst.1

/-- C4. The RSVP operation follows the spec's transition algorithm: a
status outside the four accepted strings is a 400 leaving the store
unchanged; an accepted status first removes the user's existing entry
(adjusting each counter by that entry's contribution), then appends one
fresh entry exactly when the new status is `going` or `interested`
(incrementing the matching counter), and `not_going` or the empty string
leave the user with no entry. -/
theorem rsvp_transition (store : List Event) (uid eid : Nat) (st : String)
    (e : Event) (hfind : findEvent store eid = some e)
    (hone : ∀ u, userCount u e.rsvps ≤ 1) :
    (validRsvpStatus st = false →
      rsvpHandler store uid eid st = (400, store, none)) ∧
    (validRsvpStatus st = true →
      rsvpHandler store uid eid st =
        (200, saveEvent (rsvpUpdate e uid st) store, some st) ∧
      (rsvpUpdate e uid st).rsvps =
        removeUserRsvp uid e.rsvps ++
          (if st = "going" ∨ st = "interested" then [⟨uid, st⟩] else []) ∧
      (rsvpUpdate e uid st).attendees_going =
        e.attendees_going - removedContrib e uid "going" +
          (if st = "going" then 1 else 0) ∧
      (rsvpUpdate e uid st).attendees_interested =
        e.attendees_interested - removedContrib e uid "interested" +
          (if st = "interested" then 1 else 0) ∧
      ((st = "not_going" ∨ st = "") →
        findUserRsvp uid (rsvpUpdate e uid st).rsvps = none)) := by
  constructor
  · intro hv
    rw [rsvpHandler, if_pos (by simp [hv])]
  · intro hv
    have hremnone : findUserRsvp uid (removeUserRsvp uid e.rsvps) = none := by
      cases hf : findUserRsvp uid e.rsvps with
      | none => rw [removeUserRsvp_of_none uid e.rsvps hf]; exact hf
      | some r =>
        apply none_of_userCount_zero
        have := userCount_remove_self uid e.rsvps r hf
        have := hone uid
        omega
    refine ⟨?_, ?_, ?_, ?_, ?_⟩
    · rw [rsvpHandler, if_neg (by simp [hv]), hfind]
    · rw [rsvpUpdate]
      cases hf : findUserRsvp uid e.rsvps with
      | none =>
        rw [removeUserRsvp_of_none uid e.rsvps hf]
        by_cases hst : st ≠ "" ∧ st ≠ "not_going"
        · rw [if_pos hst, if_pos (valid_status_cases st hv hst)]
        · rw [if_neg hst]
          have hne : ¬ (st = "going" ∨ st = "interested") := by
            rintro (h | h)
            · exact (status_end_ne st hst).1 h
            · exact (status_end_ne st hst).2 h
          rw [if_neg hne]
          simp
      | some r =>
        by_cases hst : st ≠ "" ∧ st ≠ "not_going"
        · rw [if_pos hst, if_pos (valid_status_cases st hv hst)]
        · rw [if_neg hst]
          have hne : ¬ (st = "going" ∨ st = "interested") := by
            rintro (h | h)
            · exact (status_end_ne st hst).1 h
            · exact (status_end_ne st hst).2 h
          rw [if_neg hne]
          simp
    · rw [rsvpUpdate, removedContrib]
      cases hf : findUserRsvp uid e.rsvps with
      | none =>
        by_cases hst : st ≠ "" ∧ st ≠ "not_going"
        · rw [if_pos hst]; simp
        · rw [if_neg hst]
          simp [(status_end_ne st hst).1]
      | some r =>
        by_cases hst : st ≠ "" ∧ st ≠ "not_going"
        · rw [if_pos hst]
        · rw [if_neg hst]
          simp [(status_end_ne st hst).1]
    · rw [rsvpUpdate, removedContrib]
      cases hf : findUserRsvp uid e.rsvps with
      | none =>
        by_cases hst : st ≠ "" ∧ st ≠ "not_going"
        · rw [if_pos hst]; simp
        · rw [if_neg hst]
          simp [(status_end_ne st hst).2]
      | some r =>
        by_cases hst : st ≠ "" ∧ st ≠ "not_going"
        · rw [if_pos hst]
        · rw [if_neg hst]
          simp [(status_end_ne st hst).2]
    · intro hend
      have hst : ¬ (st ≠ "" ∧ st ≠ "not_going") := by
        rcases hend with h | h <;> subst h <;> simp
      rw [rsvpUpdate]
      cases hf : findUserRsvp uid e.rsvps with
      | none =>
        rw [if_neg hst]
        exact hf
      | some r =>
        rw [if_neg hst]
        exact hremnone

theorem rsvp_transition_witness :
    rsvpHandler [sampleEvent] 2 1 "party" = (400, [sampleEvent], none) ∧
    (rsvpUpdate sampleEvent 2 "going").rsvps =
      removeUserRsvp 2 sampleEvent.rsvps ++ [⟨2, "going"⟩] :=
  ⟨(rsvp_transition [sampleEvent] 2 1 "party" sampleEvent (by decide)
      (fun u => by simp [sampleEvent, userCount])).1 (by decide),
   by
    have h := (rsvp_transition [sampleEvent] 2 1 "going" sampleEvent (by decide)
      (fun u => by simp [sampleEvent, userCount])).2 (by decide)
    simpa using h.2.1⟩

theorem removeFav_sublist (uid : Nat) (l : List Nat) :
    List.Sublist (removeFav uid l) l := by
  induction l with
  | nil => exact List.Sublist.refl []
  | cons x xs ih =>
    rw [removeFav]
    by_cases hx : x = uid
    · rw [if_pos hx]
      exact List.sublist_cons_self x xs
    · rw [if_neg hx]
      exact ih.cons₂ x

theorem not_mem_removeFav (uid : Nat) (l : List Nat) (h : l.Nodup) :
    uid ∉ removeFav uid l := by
  induction l with
  | nil => simp [removeFav]
  | cons x xs ih =>
    rw [removeFav]
    by_cases hx : x = uid
    · rw [if_pos hx]
      subst hx
      exact (List.nodup_cons.mp h).1
    · rw [if_neg hx]
      intro hmem
      rcases List.mem_cons.mp hmem with h1 | h1
      · exact hx h1.symm
      · exact ih (List.nodup_cons.mp h).2 h1

theorem favUpdate_mem (e : Event) (uid : Nat) (v : JsValue)
    (hnd : e.favorites.Nodup) :
    uid ∈ (favUpdate e uid v).favorites ↔ v.truthy = true := by
  cases hb : v.truthy <;> by_cases hm : uid ∈ e.favorites <;>
    simp [favUpdate, hb, hm, not_mem_removeFav uid e.favorites hnd]

theorem favUpdate_nodup (e : Event) (uid : Nat) (v : JsValue)
    (hnd : e.favorites.Nodup) : (favUpdate e uid v).favorites.Nodup := by
  cases hb : v.truthy
  · by_cases hm : uid ∈ e.favorites
    · simp only [favUpdate, hb]
      rw [if_neg (by simp), if_pos (by simp [hm])]
      exact (removeFav_sublist uid e.favorites).nodup hnd
    · simp only [favUpdate, hb]
      rw [if_neg (by simp), if_neg (by simp [hm])]
      exact hnd
  · by_cases hm : uid ∈ e.favorites
    · simp only [favUpdate, hb]
      rw [if_neg (by simp [hm]), if_neg (by simp)]
      exact hnd
    · simp only [favUpdate, hb]
      rw [if_pos (by simp [hm])]
      simp [List.nodup_append, hnd, hm]

theorem favUpdate_noop_present (e : Event) (uid : Nat) (v : JsValue)
    (ht : v.truthy = true) (hm : uid ∈ e.favorites) : favUpdate e uid v = e := by
  unfold favUpdate
  rw [if_neg (by simp [hm]), if_neg (by simp [ht])]

theorem favUpdate_noop_absent (e : Event) (uid : Nat) (v : JsValue)
    (ht : v.truthy = false) (hm : uid ∉ e.favorites) : favUpdate e uid v = e := by
  unfold favUpdate
  rw [if_neg (by simp [ht]), if_neg (by simp [hm])]

/-- C5. The favorite operation is an idempotent set-membership update:
favoriting when already present and unfavoriting when absent are no-ops,
afterwards the favorites set contains the user exactly when the request
asked to favorite, and no duplicates arise. -/
theorem favorite_idempotent_set (e : Event) (uid : Nat) (v : JsValue)
    (hnd : e.favorites.Nodup) :
    (uid ∈ (favUpdate e uid v).favorites ↔ v.truthy = true) ∧
    (favUpdate e uid v).favorites.Nodup ∧
    (v.truthy = true → uid ∈ e.favorites → favUpdate e uid v = e) ∧
    (v.truthy = false → uid ∉ e.favorites → favUpdate e uid v = e) :=
  ⟨favUpdate_mem e uid v hnd, favUpdate_nodup e uid v hnd,
   fun ht hm => favUpdate_noop_present e uid v ht hm,
   fun ht hm => favUpdate_noop_absent e uid v ht hm⟩

theorem favorite_idempotent_set_witness :
    ((2 : Nat) ∈ (favUpdate sampleEvent 2 (JsValue.bool true)).favorites ↔
      (JsValue.bool true).truthy = true) ∧
    (favUpdate sampleEvent 2 (JsValue.bool true)).favorites.Nodup ∧
    ((JsValue.bool true).truthy = true → 2 ∈ sampleEvent.favorites →
      favUpdate sampleEvent 2 (JsValue.bool true) = sampleEvent) ∧
    ((JsValue.bool true).truthy = false → 2 ∉ sampleEvent.favorites →
      favUpdate sampleEvent 2 (JsValue.bool true) = sampleEvent) :=
  favorite_idempotent_set sampleEvent 2 (JsValue.bool true) (by decide)

/-- C10. The favorite handler performs no body validation, so it never
returns a 400: for an existing event it always answers 200, interprets
`is_favorited` by JavaScript truthiness, and echoes the request's
`is_favorited` value verbatim instead of the stored membership state. -/
theorem favorite_truthiness_no_400 (store : List Event) (uid eid : Nat)
    (v : JsValue) (e : Event) (hfind : findEvent store eid = some e)
    (hnd : e.favorites.Nodup) :
    (∀ (s : List Event) (u n : Nat) (w : JsValue),
      (favoriteHandler s u n w).1 ≠ 400) ∧
    favoriteHandler store uid eid v =
      (200, saveEvent (favUpdate e uid v) store, some v) ∧
    (uid ∈ (favUpdate e uid v).favorites ↔ v.truthy = true) := by
  refine ⟨?_, ?_, favUpdate_mem e uid v hnd⟩
  · intro s u n w
    rw [favoriteHandler]
    cases hf : findEvent s n with
    | none => simp
    | some x => simp
  · rw [favoriteHandler, hfind]

theorem favorite_truthiness_no_400_witness :
    (favoriteHandler [sampleEvent] 2 1 (JsValue.str "yes")).1 ≠ 400 ∧
    favoriteHandler [sampleEvent] 2 1 (JsValue.str "yes") =
      (200, saveEvent (favUpdate sampleEvent 2 (JsValue.str "yes")) [sampleEvent],
        some (JsValue.str "yes")) :=
  ⟨(favorite_truthiness_no_400 [sampleEvent] 2 1 (JsValue.str "yes") sampleEvent
      (by decide) (by decide)).1 [sampleEvent] 2 1 (JsValue.str "yes"),
   (favorite_truthiness_no_400 [sampleEvent] 2 1 (JsValue.str "yes") sampleEvent
      (by decide) (by decide)).2.1⟩

/-- C9. The claim says the first comment appears before any later-added
comment. The code refutes it: comments are returned newest-first, so after
B's "Hello" (timestamp 1) and a later "World" (timestamp 2) on the same
event, the GET handler lists "World" first and "Hello" last, while the
exactly-one part after the first post does hold. -/
theorem comments_newest_first_cex :
    getCommentsHandler (addCommentHandler [sampleEvent] 2 "B" 1 "Hello" 1).2.1 1 =
      (200, [⟨2, "B", "Hello", 1⟩]) ∧
    getCommentsHandler
      (addCommentHandler
        (addCommentHandler [sampleEvent] 2 "B" 1 "Hello" 1).2.1 3 "C" 1 "World" 2).2.1 1 =
      (200, [⟨3, "C", "World", 2⟩, ⟨2, "B", "Hello", 1⟩]) := by
  exact ⟨by decide, by decide⟩

/-- C9 (amended). After B posts "Hello" on an event with no comments, the
GET comments handler returns exactly that one comment with text "Hello"
and B's username; and since the handler sorts newest-first, any comment
with a strictly later timestamp appears before the "Hello" comment in the
returned list. -/
theorem comments_order_amended :
    (∀ store eid e uid uname now, findEvent store eid = some e →
      e.comments = [] →
      getCommentsHandler (addCommentHandler store uid uname eid "Hello" now).2.1 eid =
        (200, [⟨uid, uname, "Hello", now⟩])) ∧
    (∀ cs l₁ l₂ hello c, sortComments cs = l₁ ++ hello :: l₂ → c ∈ cs →
      hello.created_at < c.created_at → c ∈ l₁) := by
  constructor
  · intro store eid e uid uname now hfind hcs
    rw [addCommentHandler, if_neg (by decide), if_neg (by decide), hfind]
    have ht : trimStr "Hello" = "Hello" := by decide
    rw [ht]
    rw [getCommentsHandler,
      findEvent_saveEvent store eid e
        { e with comments := e.comments ++ [⟨uid, uname, "Hello", now⟩] } hfind rfl]
    rw [hcs]
    rfl
  · intro cs l₁ l₂ hello c hsplit hc hlt
    have hsorted : List.Sorted commentLE (sortComments cs) :=
      List.sorted_insertionSort commentLE cs
    rw [hsplit] at hsorted
    have hmem : c ∈ sortComments cs :=
      ((List.perm_insertionSort commentLE cs).mem_iff).mpr hc
    rw [hsplit] at hmem
    rcases List.mem_append.mp hmem with h1 | h1
    · exact h1
    · rcases List.mem_cons.mp h1 with h2 | h2
      · rw [h2] at hlt
        omega
      · have hp : List.Pairwise commentLE (hello :: l₂) :=
          (List.pairwise_append.mp hsorted).2.1
        have hle := (List.pairwise_cons.mp hp).1 c h2
        rw [commentLE] at hle
        omega

theorem comments_order_amended_witness :
    getCommentsHandler (addCommentHandler [sampleEvent] 2 "B" 1 "Hello" 7).2.1 1 =
      (200, [⟨2, "B", "Hello", 7⟩]) ∧
    (⟨3, "C", "World", 9⟩ : Comment) ∈ ([⟨3, "C", "World", 9⟩] : List Comment) :=
  ⟨comments_order_amended.1 [sampleEvent] 1 sampleEvent 2 "B" 7 (by decide) rfl,
   comments_order_amended.2 [⟨2, "B", "Hello", 7⟩, ⟨3, "C", "World", 9⟩]
     [⟨3, "C", "World", 9⟩] [] ⟨2, "B", "Hello", 7⟩ ⟨3, "C", "World", 9⟩
     (by decide) (by decide) (by decide)⟩

theorem lowerChar_toNat_of_upper (c : Char) (h : 'A' ≤ c ∧ c ≤ 'Z') :
    (lowerChar c).toNat = c.toNat + 32 := by
  rw [lowerChar, if_pos h]
  have h1 : (65 : Nat) ≤ c.toNat := h.1
  have h2 : c.toNat ≤ 90 := h.2
  have hv : (c.toNat + 32).isValidChar := by
    left
    omega
  unfold Char.ofNat
  rw [dif_pos hv]
  rfl

theorem lowerChar_id_of_not_upper (c : Char) (h : ¬ ('A' ≤ c ∧ c ≤ 'Z')) :
    lowerChar c = c := by
  rw [lowerChar, if_neg h]

theorem lowerChar_idem (c : Char) : lowerChar (lowerChar c) = lowerChar c := by
  by_cases h : 'A' ≤ c ∧ c ≤ 'Z'
  · have ht := lowerChar_toNat_of_upper c h
    have hne : ¬ ('A' ≤ lowerChar c ∧ lowerChar c ≤ 'Z') := by
      intro hcon
      have hc2 : (lowerChar c).toNat ≤ 90 := hcon.2
      have h1 : (65 : Nat) ≤ c.toNat := h.1
      rw [ht] at hc2
      omega
    exact lowerChar_id_of_not_upper (lowerChar c) hne
  · rw [lowerChar_id_of_not_upper c h, lowerChar_id_of_not_upper c h]

theorem isWs_of_toNat_large (c : Char) (h : 65 ≤ c.toNat) : isWs c = false := by
  have hsp : c ≠ ' ' := by
    intro hc; rw [hc] at h; exact absurd h (by decide)
  have htb : c ≠ '\t' := by
    intro hc; rw [hc] at h; exact absurd h (by decide)
  have hnl : c ≠ '\n' := by
    intro hc; rw [hc] at h; exact absurd h (by decide)
  have hcr : c ≠ '\r' := by
    intro hc; rw [hc] at h; exact absurd h (by decide)
  simp [isWs, hsp, htb, hnl, hcr]

theorem isWs_lowerChar (c : Char) : isWs (lowerChar c) = isWs c := by
  by_cases h : 'A' ≤ c ∧ c ≤ 'Z'
  · have ht := lowerChar_toNat_of_upper c h
    have h1 : (65 : Nat) ≤ c.toNat := h.1
    rw [isWs_of_toNat_large c h1, isWs_of_toNat_large (lowerChar c) (by omega)]
  · rw [lowerChar_id_of_not_upper c h]

theorem lowerStr_idem (s : String) : lowerStr (lowerStr s) = lowerStr s := by
  rw [lowerStr, lowerStr]
  have : (String.mk (s.data.map lowerChar)).data = s.data.map lowerChar := rfl
  rw [this, List.map_map]
  have hcongr : s.data.map (lowerChar ∘ lowerChar) = s.data.map lowerChar :=
    List.map_congr_left (fun a _ => lowerChar_idem a)
  rw [hcongr]

theorem trimStr_lowerStr (s : String) :
    trimStr (lowerStr s) = lowerStr (trimStr s) := by
  rw [trimStr, lowerStr, trimStr, lowerStr]
  have hdata : ∀ l : List Char, (String.mk l).data = l := fun _ => rfl
  rw [hdata, hdata]
  have hfun : (isWs ∘ lowerChar) = isWs := funext isWs_lowerChar
  rw [List.dropWhile_map, hfun, ← List.map_reverse, List.dropWhile_map, hfun,
    ← List.map_reverse]

theorem regInv_registerHandler (hash : String → String) (store : List UserRec)
    (n : Nat) (r : RegisterReq) (h : regInv store) :
    regInv (registerHandler hash store n r).2.1 := by
  obtain ⟨hlow, hpw⟩ := h
  simp only [registerHandler]
  by_cases hval : validRegister r
  · rw [if_neg (by simp [hval])]
    cases hdup : findDuplicate store (trimStr r.username) (trimStr (lowerStr r.email)) with
    | some u =>
      show regInv ((if u.email = trimStr (lowerStr r.email)
        then ((409 : Nat), store, emailConflictMsg)
        else ((409 : Nat), store, usernameConflictMsg))).2.1
      by_cases hm : u.email = trimStr (lowerStr r.email)
      · rw [if_pos hm]; exact ⟨hlow, hpw⟩
      · rw [if_neg hm]; exact ⟨hlow, hpw⟩
    | none =>
      show regInv (store ++
        [({ id := n, username := trimStr r.username,
            email := trimStr (lowerStr r.email), passwordHash := hash r.password,
            zipcode := trimStr r.zipcode, isAdmin := false,
            lastLogin := none } : UserRec)])
      have hnone := List.find?_eq_none.mp hdup
      have hemlow : lowerStr (trimStr (lowerStr r.email)) = trimStr (lowerStr r.email) := by
        rw [trimStr_lowerStr]
        exact lowerStr_idem (trimStr r.email)
      constructor
      · intro u hu
        rcases List.mem_append.mp hu with h1 | h1
        · exact hlow u h1
        · rw [List.mem_singleton.mp h1]
          exact hemlow
      · rw [List.pairwise_append]
        refine ⟨hpw, List.pairwise_singleton _ _, ?_⟩
        intro a ha b hb
        rw [List.mem_singleton.mp hb]
        have hp := hnone a ha
        simp only [Bool.or_eq_true, decide_eq_true_eq, not_or] at hp
        constructor
        · intro hcon
          apply hp.1
          rw [← hlow a ha, hcon]
          exact hemlow
        · intro hcon
          apply hp.2
          rw [ciEq]
          simp [hcon]
  · rw [if_pos (by simp [hval])]
    exact ⟨hlow, hpw⟩

theorem regInv_runRegs (hash : String → String) (reqs : List RegisterReq) :
    regInv (runRegs hash reqs) := by
  rw [runRegs]
  suffices h : ∀ st : List UserRec × Nat,
      regInv st.1 → regInv ((reqs.foldl (regStep hash) st)).1 by
    exact h ([], 0) ⟨by simp, List.Pairwise.nil⟩
  induction reqs with
  | nil => exact fun st h => h
  | cons q t ih =>
    intro st h
    exact ih (regStep hash st q) (regInv_registerHandler hash st.1 st.2 q h)

/-- C6. Username and email are each globally unique case-insensitively
over every Credential Store reachable through registration, and a valid
second registration colliding case-insensitively on email or username is
rejected with a 409 whose message names a genuinely colliding field,
leaving the store unchanged. -/
theorem register_ci_unique :
    (∀ (hash : String → String) (reqs : List RegisterReq),
      (runRegs hash reqs).Pairwise (fun u v =>
        lowerStr u.email ≠ lowerStr v.email ∧
        lowerStr u.username ≠ lowerStr v.username)) ∧
    (∀ (hash : String → String) (store : List UserRec) (n : Nat)
      (r : RegisterReq),
      (∀ u ∈ store, lowerStr u.email = u.email) →
      validRegister r = true →
      (∃ u ∈ store, ciEq u.email (trimStr r.email) = true ∨
        ciEq u.username (trimStr r.username) = true) →
      ∃ msg, registerHandler hash store n r = (409, store, msg) ∧
        (msg = emailConflictMsg ∨ msg = usernameConflictMsg) ∧
        (msg = emailConflictMsg →
          ∃ w ∈ store, ciEq w.email (trimStr r.email) = true) ∧
        (msg = usernameConflictMsg →
          ∃ w ∈ store, ciEq w.username (trimStr r.username) = true)) := by
  constructor
  · intro hash reqs
    exact (regInv_runRegs hash reqs).2
  · intro hash store n r hlow hval hcol
    have hemeq : trimStr (lowerStr r.email) = lowerStr (trimStr r.email) :=
      trimStr_lowerStr r.email
    obtain ⟨u, hu, hcase⟩ := hcol
    have hpred : (u.email = trimStr (lowerStr r.email) ||
        ciEq u.username (trimStr r.username)) = true := by
      rcases hcase with hce | hcu
      · rw [Bool.or_eq_true]
        left
        rw [decide_eq_true_eq, hemeq, ← hlow u hu]
        rw [ciEq, decide_eq_true_eq] at hce
        exact hce
      · rw [Bool.or_eq_true]
        right
        exact hcu
    have hsome : (findDuplicate store (trimStr r.username)
        (trimStr (lowerStr r.email))).isSome = true := by
      rw [findDuplicate, List.find?_isSome]
      exact ⟨u, hu, hpred⟩
    cases hfd : findDuplicate store (trimStr r.username)
        (trimStr (lowerStr r.email)) with
    | none => rw [hfd] at hsome; exact absurd hsome (by simp)
    | some u₀ =>
      have hfd2 := hfd
      rw [findDuplicate] at hfd2
      have hu₀mem : u₀ ∈ store := List.mem_of_find?_eq_some hfd2
      have hu₀pred := List.find?_some hfd2
      have hres : registerHandler hash store n r =
          (if u₀.email = trimStr (lowerStr r.email)
            then (409, store, emailConflictMsg)
            else (409, store, usernameConflictMsg)) := by
        simp only [registerHandler]
        rw [if_neg (by simp [hval]), hfd]
      rw [hres]
      by_cases hmail : u₀.email = trimStr (lowerStr r.email)
      · rw [if_pos hmail]
        refine ⟨emailConflictMsg, rfl, Or.inl rfl, fun _ => ⟨u₀, hu₀mem, ?_⟩,
          fun hcon => absurd hcon (by decide)⟩
        rw [ciEq, decide_eq_true_eq, hmail, hemeq]
        exact lowerStr_idem (trimStr r.email)
      · rw [if_neg hmail]
        refine ⟨usernameConflictMsg, rfl, Or.inr rfl,
          fun hcon => absurd hcon (by decide), fun _ => ⟨u₀, hu₀mem, ?_⟩⟩
        rw [Bool.or_eq_true, decide_eq_true_eq] at hu₀pred
        rcases hu₀pred with h1 | h1
        · exact absurd h1 hmail
        · exact h1

theorem register_ci_unique_witness :
    ∃ msg, registerHandler (fun s => s) [sampleUser] 5
        ⟨"bob", "Alice@Example.com", "secret1", "12345"⟩ =
      (409, [sampleUser], msg) ∧
      (msg = emailConflictMsg ∨ msg = usernameConflictMsg) ∧
      (msg = emailConflictMsg → ∃ w ∈ [sampleUser],
        ciEq w.email (trimStr "Alice@Example.com") = true) ∧
      (msg = usernameConflictMsg → ∃ w ∈ [sampleUser],
        ciEq w.username (trimStr "bob") = true) :=
  register_ci_unique.2 (fun s => s) [sampleUser] 5
    ⟨"bob", "Alice@Example.com", "secret1", "12345"⟩
    (by decide) (by decide) ⟨sampleUser, by decide, by decide⟩

/-- C7. Login failure is uniform: a request with an unknown email and a
request with a known email but wrong password produce identical responses,
namely a 401 with the same message and an unchanged store. -/
theorem login_uniform_failure (verify : UserRec → String → Bool)
    (store : List UserRec) (e1 p1 e2 p2 : String) (now : Nat) (u : UserRec)
    (hv1 : validLogin e1 p1 = true) (hv2 : validLogin e2 p2 = true)
    (h1 : store.find? (fun x => x.email = trimStr (lowerStr e1)) = none)
    (h2 : store.find? (fun x => x.email = trimStr (lowerStr e2)) = some u)
    (h3 : verify u p2 = false) :
    loginHandler verify store e1 p1 now = loginHandler verify store e2 p2 now ∧
    loginHandler verify store e1 p1 now = (401, loginFailMsg, store) := by
  have ha : loginHandler verify store e1 p1 now = (401, loginFailMsg, store) := by
    simp only [loginHandler]
    rw [if_neg (by simp [hv1]), h1]
  have hb : loginHandler verify store e2 p2 now = (401, loginFailMsg, store) := by
    have hres : loginHandler verify store e2 p2 now =
        (if ¬ verify u p2 then (401, loginFailMsg, store)
         else (200, "", saveUser { u with lastLogin := some now } store)) := by
      simp only [loginHandler]
      rw [if_neg (by simp [hv2]), h2]
    rw [hres, if_pos (by simp [h3])]
  exact ⟨ha.trans hb.symm, ha⟩

theorem login_uniform_failure_witness :
    loginHandler (fun _ _ => false) [sampleUser] "bob@example.com" "secret" 3 =
      loginHandler (fun _ _ => false) [sampleUser] "alice@example.com" "secret" 3 ∧
    loginHandler (fun _ _ => false) [sampleUser] "bob@example.com" "secret" 3 =
      (401, loginFailMsg, [sampleUser]) :=
  login_uniform_failure (fun _ _ => false) [sampleUser] "bob@example.com" "secret"
    "alice@example.com" "secret" 3 sampleUser (by decide) (by decide) (by decide)
    (by decide) rfl

end CommunityCalendar
